import Mathlib

/-
Verification of the http-lite HTTP/1.1 server library against its
specification.  The Go sources are shallowly embedded: Go strings are
lists of characters, Go maps are association lists (insertion order is
kept; Go map iteration order is irrelevant to the properties below),
connections are modelled by the list of bytes written so far, and the
panic on an out-of-bounds index is modelled by `Option`.
-/

set_option autoImplicit false

namespace HttpLite

/-- A Go string, modelled as its list of characters. -/
abbrev GoStr := List Char

/-- Go `unicode.IsSpace` restricted to the code points it recognises
(ASCII whitespace plus NEL and NBSP). -/
def isSpace (c : Char) : Bool :=
  c = ' ' || c = '\t' || c = '\n' || c = Char.ofNat 11 || c = Char.ofNat 12 ||
  c = '\r' || c = Char.ofNat 133 || c = Char.ofNat 160

/-- Go `strings.Split(s, sep)` for a one-character separator. -/
def splitOn (sep : Char) : GoStr → List GoStr
  | [] => [[]]
  | c :: cs =>
    if c = sep then [] :: splitOn sep cs
    else
      match splitOn sep cs with
      | [] => [[c]]
      | h :: t => (c :: h) :: t

/-- Go `strings.SplitN(s, sep, 2)` for a one-character separator:
`some (before, after)` around the first occurrence, `none` when the
separator does not occur (Go would return the one-element slice `[s]`). -/
def splitFirst (sep : Char) : GoStr → Option (GoStr × GoStr)
  | [] => none
  | c :: cs =>
    if c = sep then some ([], cs)
    else
      match splitFirst sep cs with
      | none => none
      | some (a, b) => some (c :: a, b)

/-- Leading-whitespace trim, one half of Go `strings.TrimSpace`. -/
def trimLeft (s : GoStr) : GoStr := s.dropWhile (fun c => isSpace c)

/-- Trailing-whitespace trim, the other half of Go `strings.TrimSpace`. -/
def trimRight (s : GoStr) : GoStr := (s.reverse.dropWhile (fun c => isSpace c)).reverse

/-- Go `strings.TrimSpace`. -/
def trimSpace (s : GoStr) : GoStr := trimRight (trimLeft s)

/-- Accumulator loop behind `fields`: `cur` is the current token, reversed. -/
def fieldsAcc (cur : GoStr) : GoStr → List GoStr
  | [] => if cur = [] then [] else [cur.reverse]
  | c :: cs =>
    if isSpace c then
      if cur = [] then fieldsAcc [] cs else cur.reverse :: fieldsAcc [] cs
    else fieldsAcc (c :: cur) cs

/-- Go `strings.Fields`: the maximal runs of non-whitespace characters. -/
def fields (s : GoStr) : List GoStr := fieldsAcc [] s

/-- Lookup in an association list by exact key, the model of reading a
Go map or of `sync.Map.Load`. -/
def assocLookup {β : Type} : List (GoStr × β) → GoStr → Option β
  | [], _ => none
  | (k, v) :: rest, key => if k = key then some v else assocLookup rest key

/-- Update of an association list: replace the value at the key when
present, append otherwise — the model of Go map assignment and of
`sync.Map.Store`. -/
def assocStore {β : Type} : List (GoStr × β) → GoStr → β → List (GoStr × β)
  | [], key, v => [(key, v)]
  | (k, w) :: rest, key, v =>
    if k = key then (key, v) :: rest else (k, w) :: assocStore rest key v

/-- The `Header` store of `pkg/http/header.go`: `map[string][]string`. -/
abbrev Header := List (GoStr × List GoStr)

/-- `Header.Set` from `pkg/http/header.go`: `h[key] = []string{value}` —
the stored slice is replaced by the one-element slice `[value]`. -/
def Header.set (h : Header) (key value : GoStr) : Header :=
  assocStore h key [value]

/-- `Header.Get` from `pkg/http/header.go`: the first stored value when
the key is present with a non-empty slice, the empty string otherwise. -/
def Header.get (h : Header) (key : GoStr) : GoStr :=
  match assocLookup h key with
  | some values =>
    match values with
    | v :: _ => v
    | [] => []
  | none => []

/-- The `Cookie` record of `pkg/http/cookie.go`.  The `time.Time` field
`Expires` is modelled by its RFC1123-formatted text, `none` standing for
Go's zero time (`IsZero`); only the presence and placement of the
formatted date matter to the claims. -/
structure Cookie where
  name : GoStr
  value : GoStr
  path : GoStr := []
  domain : GoStr := []
  expires : Option GoStr := none
  maxAge : Int := 0
  secure : Bool := false
  httpOnly : Bool := false

/-- `Cookie.String` from `pkg/http/cookie.go`: `name=value` followed by
the attribute fragments appended under the source's conditions, in the
source's order. -/
def Cookie.string (c : Cookie) : GoStr :=
  let s := c.name ++ '=' :: c.value
  let s := if c.path ≠ [] then s ++ "; Path=".data ++ c.path else s
  let s := if c.domain ≠ [] then s ++ "; Domain=".data ++ c.domain else s
  let s :=
    match c.expires with
    | some d => s ++ "; Expires=".data ++ d
    | none => s
  let s := if c.maxAge > 0 then s ++ "; Max-Age=".data ++ (toString c.maxAge).data else s
  let s := if c.secure then s ++ "; Secure".data else s
  if c.httpOnly then s ++ "; HttpOnly".data else s

/-- The serialization as claim C7 words it: every attribute fragment is
emitted exactly when applicable, where for max-age "zero means unset,
negative means delete" — so the `Max-Age` fragment appears whenever the
field is non-zero.  Stated from the claim's words, to be compared with
`Cookie.string`, which is translated from the source. -/
def Cookie.stringAsClaimed (c : Cookie) : GoStr :=
  let s := c.name ++ '=' :: c.value
  let s := if c.path ≠ [] then s ++ "; Path=".data ++ c.path else s
  let s := if c.domain ≠ [] then s ++ "; Domain=".data ++ c.domain else s
  let s :=
    match c.expires with
    | some d => s ++ "; Expires=".data ++ d
    | none => s
  let s := if c.maxAge ≠ 0 then s ++ "; Max-Age=".data ++ (toString c.maxAge).data else s
  let s := if c.secure then s ++ "; Secure".data else s
  if c.httpOnly then s ++ "; HttpOnly".data else s

/-- `parseCookies` from the wire parser: split the `Cookie` header value
on `;`, trim each part, split each part on the first `=`, and keep the
`(name, value)` pairs of the parts that contained an `=`. -/
def parseCookies (s : GoStr) : List (GoStr × GoStr) :=
  (splitOn ';' s).filterMap (fun part => splitFirst '=' (trimSpace part))

/-- Modelled from the spec: the reason-phrase table of §4.2 (`StatusText`
lives in a file of this repository that is not under `src/`; the Go
stdlib `http.StatusText` used by `handleConn` agrees on these codes).
Unknown codes map to the empty string. -/
def statusText (code : Int) : GoStr :=
  if code = 200 then "OK".data
  else if code = 201 then "Created".data
  else if code = 204 then "No Content".data
  else if code = 400 then "Bad Request".data
  else if code = 401 then "Unauthorized".data
  else if code = 403 then "Forbidden".data
  else if code = 404 then "Not Found".data
  else if code = 405 then "Method Not Allowed".data
  else if code = 500 then "Internal Server Error".data
  else if code = 503 then "Service Unavailable".data
  else []

/-- The CRLF line terminator. -/
def crlf : GoStr := "\r\n".data

/-- The status line `HTTP/1.1 <code> <reason>\r\n` that
`Response.WriteHeader` emits. -/
def statusLine (code : Int) : GoStr :=
  "HTTP/1.1 ".data ++ (toString code).data ++ " ".data ++ statusText code ++ crlf

/-- The `Response` of the response emitter: status code, header map,
headers-sent flag, and the bytes written to the connection so far (the
model of the `net.Conn` sink). -/
structure Response where
  statusCode : Int
  headers : Header
  headersSent : Bool
  wire : GoStr

/-- The header block `Response.WriteHeader` emits: one `Name: first\r\n`
line per key, reading `v[0]` of each stored slice.  `none` models the Go
panic when some slice is empty. -/
def emitHeaderLines : Header → Option GoStr
  | [] => some []
  | (k, vs) :: rest =>
    match vs with
    | [] => none
    | v :: _ =>
      match emitHeaderLines rest with
      | none => none
      | some r => some (k ++ ": ".data ++ v ++ crlf ++ r)

/-- `Response.WriteHeader`: a no-op once the headers-sent flag is set;
otherwise records the status code, writes the status line, the header
block and a blank line, and sets the flag.  `none` models the panic on an
empty stored value slice. -/
def Response.writeHeader (r : Response) (code : Int) : Option Response :=
  if r.headersSent then some r
  else
    match emitHeaderLines r.headers with
    | none => none
    | some lines =>
      some { statusCode := code, headers := r.headers, headersSent := true,
             wire := r.wire ++ statusLine code ++ lines ++ crlf }

/-- The parse failures of the wire parser (`parseRequestWithTimeout` and
the deadline race in `parseRequest`): immediate EOF, the context's
`DeadlineExceeded`, a malformed request line, an unsupported protocol, a
URL parse failure, a malformed header line, or a transport read failure. -/
inductive ParseError where
  | eof
  | deadlineExceeded
  | malformedRequestLine
  | unsupportedProtocol (proto : GoStr)
  | urlParse
  | malformedHeaderLine
  | readFailed
deriving DecidableEq

/-- The protocol token the parser requires. -/
def httpProto : GoStr := "HTTP/1.1".data

/-- The request-line step of `parseRequestWithTimeout`: split the line
with `strings.Fields`, fail as malformed when fewer than three tokens
result, take the first three as method, raw URL and protocol, and fail
when the protocol token differs from `HTTP/1.1`. -/
def parseRequestLine (line : GoStr) : Except ParseError (GoStr × GoStr × GoStr) :=
  match fields line with
  | m :: u :: p :: _ =>
    if p = httpProto then Except.ok (m, u, p)
    else Except.error (ParseError.unsupportedProtocol p)
  | _ => Except.error ParseError.malformedRequestLine

/-- The error path of `Server.handleConn`: on `io.EOF` nothing is
written; on any other parse failure (the deadline's `DeadlineExceeded`
included) the line `HTTP/1.1 400 Bad Request\r\n\r\n` is written before
the deferred close. -/
def connParseFailureBytes : ParseError → GoStr
  | ParseError.eof => []
  | _ => "HTTP/1.1 ".data ++ (toString (400 : Int)).data ++ " ".data ++
         statusText 400 ++ crlf ++ crlf

/-- A node of the route trie (`RouteNode` of the multiplexer): path
segment, per-method handler map, children keyed by their segment, and the
dynamic-segment flag.  Handlers are abstract values of type `α`. -/
inductive RouteNode (α : Type) : Type where
  | mk (pathSegment : GoStr) (handler : List (GoStr × α))
       (children : List (GoStr × RouteNode α)) (isDynamic : Bool)

/-- The stored path segment of a node. -/
def RouteNode.pathSegment {α : Type} : RouteNode α → GoStr
  | .mk s _ _ _ => s

/-- The per-method handler map of a node. -/
def RouteNode.handler {α : Type} : RouteNode α → List (GoStr × α)
  | .mk _ h _ _ => h

/-- The children of a node, keyed by their path segment. -/
def RouteNode.children {α : Type} : RouteNode α → List (GoStr × RouteNode α)
  | .mk _ _ c _ => c

/-- The dynamic-segment flag of a node. -/
def RouteNode.isDynamic {α : Type} : RouteNode α → Bool
  | .mk _ _ _ d => d

/-- Whether a segment declares a route parameter (`strings.HasPrefix(seg, ":")`). -/
def startsWithColon : GoStr → Bool
  | ':' :: _ => true
  | _ => false

/-- `strings.TrimPrefix(seg, ":")`: the parameter name behind a dynamic
segment. -/
def dropColon : GoStr → GoStr
  | ':' :: rest => rest
  | s => s

/-- `getDynamicChild`: the first child whose segment starts with `:`
(the iteration order of the children map is fixed to list order here;
the source's `sync.Map.Range` order is unspecified, and the spec allows
picking any dynamic child). -/
def getDynamicChild {α : Type} : List (GoStr × RouteNode α) → Option (RouteNode α)
  | [] => none
  | (_, c) :: rest =>
    if startsWithColon c.pathSegment then some c else getDynamicChild rest

/-- The segment walk of `ServeMux.AddRoute`: locate or create the child
for each segment, marking dynamic segments, and at the terminal node
insert the handler under each method. -/
def addRouteSegs {α : Type} (node : RouteNode α) (segs : List GoStr)
    (methods : List GoStr) (h : α) : RouteNode α :=
  match segs with
  | [] =>
    RouteNode.mk node.pathSegment
      (methods.foldl (fun hm method => assocStore hm method h) node.handler)
      node.children node.isDynamic
  | seg :: rest =>
    let child :=
      match assocLookup node.children seg with
      | some c => c
      | none => RouteNode.mk seg [] [] false
    let child :=
      if startsWithColon seg then
        RouteNode.mk child.pathSegment child.handler child.children true
      else child
    let child := addRouteSegs child rest methods h
    RouteNode.mk node.pathSegment node.handler
      (assocStore node.children seg child) node.isDynamic

/-- The segment walk of `ServeMux.traverseTree`: descend into the literal
child when one matches, else into a dynamic child while recording the
parameter, else fail. -/
def traverseSegs {α : Type} (node : RouteNode α) (params : List (GoStr × GoStr)) :
    List GoStr → Option (RouteNode α × List (GoStr × GoStr))
  | [] => some (node, params)
  | seg :: rest =>
    match assocLookup node.children seg with
    | some child => traverseSegs child params rest
    | none =>
      match getDynamicChild node.children with
      | some dyn =>
        traverseSegs dyn (assocStore params (dropColon dyn.pathSegment) seg) rest
      | none => none

/-- `ServeMux.traverseTree`: split the path on `/` discarding the leading
empty token, walk the trie, and return the terminal node's handler for
the method together with the recorded parameters. -/
def traverseTree {α : Type} (path method : GoStr) (node : RouteNode α)
    (params : List (GoStr × GoStr)) : Option (α × List (GoStr × GoStr)) :=
  match traverseSegs node params ((splitOn '/' path).drop 1) with
  | none => none
  | some (n, ps) =>
    match assocLookup n.handler method with
    | some h => some (h, ps)
    | none => none

/-- The multiplexer (`ServeMux`): optional static base directory, route
trie root, middleware list, optional default handler, and whether a
custom error handler was installed.  Handlers are abstract values of
type `α`; middleware transforms handlers. -/
structure ServeMux (α : Type) where
  staticDir : Option GoStr
  root : RouteNode α
  middleware : List (α → α)
  defaultHandler : Option α
  errorHandler : Bool

/-- `NewServeMux`: a root node with empty segment, no handlers and no
children, an empty middleware list and no default or error handler. -/
def newServeMux {α : Type} (staticDir : Option GoStr) : ServeMux α :=
  { staticDir := staticDir, root := RouteNode.mk [] [] [] false,
    middleware := [], defaultHandler := none, errorHandler := false }

/-- `ServeMux.applyMiddleware`: wrap the handler in each registered
middleware, in registration order (`h = mw(h)`). -/
def ServeMux.applyMiddleware {α : Type} (mux : ServeMux α) (h : α) : α :=
  mux.middleware.foldl (fun acc mw => mw acc) h

/-- `ServeMux.AddRoute`: register the handler for the pattern under each
listed method. -/
def ServeMux.addRoute {α : Type} (mux : ServeMux α) (pattern : GoStr)
    (methods : List GoStr) (h : α) : ServeMux α :=
  { mux with root := addRouteSegs mux.root ((splitOn '/' pattern).drop 1) methods h }

/-- The seven method strings `ServeMux.Handle` registers, in source order. -/
def mGET : GoStr := "GET".data

/-- The `POST` method string. -/
def mPOST : GoStr := "POST".data

/-- The `PUT` method string. -/
def mPUT : GoStr := "PUT".data

/-- The `DELETE` method string. -/
def mDELETE : GoStr := "DELETE".data

/-- The `PATCH` method string. -/
def mPATCH : GoStr := "PATCH".data

/-- The `OPTIONS` method string. -/
def mOPTIONS : GoStr := "OPTIONS".data

/-- The `HEAD` method string. -/
def mHEAD : GoStr := "HEAD".data

/-- The method list of `ServeMux.Handle`. -/
def commonMethods : List GoStr :=
  [mGET, mPOST, mPUT, mDELETE, mPATCH, mOPTIONS, mHEAD]

/-- `ServeMux.Handle`: apply the registered middleware to the handler,
then register the wrapped handler for all common methods. -/
def ServeMux.handle {α : Type} (mux : ServeMux α) (pattern : GoStr) (h : α) :
    ServeMux α :=
  mux.addRoute pattern commonMethods (mux.applyMiddleware h)

/-- What one `ServeMux.ServeHTTP` dispatch does: serve a static file,
invoke a route handler (after middleware) with the recorded parameters,
invoke the user error handler with a status code, or invoke the built-in
`defaultErrorHandler` with a status code. -/
inductive Outcome (α : Type) where
  | static
  | found (h : α) (params : List (GoStr × GoStr))
  | errorHandled (code : Int)
  | defaultError (code : Int)
deriving DecidableEq

/-- Whether a dispatch outcome invoked a route (or default) handler of
type `α`. -/
def Outcome.isFound {α : Type} : Outcome α → Bool
  | .found _ _ => true
  | _ => false

/-- `ServeMux.ServeHTTP`.  The static-file phase is abstracted by the
boolean result `staticHit` of `serveStaticFile` (its filesystem reads
are outside this model); it is consulted only when a static directory is
configured.  On a trie miss the user error handler is invoked with 404
when installed, otherwise the built-in `defaultErrorHandler`; on a hit
the parameters are attached and the middleware-wrapped handler runs. -/
def ServeMux.serveHTTP {α : Type} (mux : ServeMux α) (staticHit : Bool)
    (path method : GoStr) : Outcome α :=
  if mux.staticDir.isSome && staticHit then Outcome.static
  else
    match traverseTree path method mux.root [] with
    | none =>
      if mux.errorHandler then Outcome.errorHandled 404 else Outcome.defaultError 404
    | some (h, params) => Outcome.found (mux.applyMiddleware h) params

/-! Concrete inputs used to instantiate the theorems below. -/

/-- The header key of the repository's own `TestHeaderSet`. -/
def ctKey : GoStr := "Content-Type".data

/-- The first value set in `TestHeaderSet`. -/
def ajVal : GoStr := "application/json".data

/-- The second value set in `TestHeaderSet`. -/
def htmlVal : GoStr := "text/html".data

/-- A fresh response bound to an empty connection, as `NewResponseWriter`
builds it. -/
def resp0 : Response :=
  { statusCode := 0, headers := [], headersSent := false, wire := [] }

/-- The bytes a bare `WriteHeader(200)` emits. -/
def okBytes : GoStr := "HTTP/1.1 200 OK\r\n\r\n".data

/-- The response after `WriteHeader(200)` on `resp0`. -/
def resp1 : Response :=
  { statusCode := 200, headers := [], headersSent := true, wire := okBytes }

/-- A response carrying one header with a non-empty value slice. -/
def respW : Response :=
  { statusCode := 0, headers := [(ctKey, [ajVal])], headersSent := false, wire := [] }

/-- The parameterized pattern of claim C3. -/
def patC3 : GoStr := "/a/:x/b".data

/-- The literal dynamic segment `:x`. -/
def colonX : GoStr := ":x".data

/-- The parameter name `x`. -/
def xKey : GoStr := "x".data

/-- The lookup path `/a/S/b` of claim C3, as a function of the middle
segment. -/
def dynPath (S : GoStr) : GoStr := "/a/".data ++ S ++ "/b".data

/-- A mux with only `/a/:x/b` registered for `GET`, handlers being bare
identifiers. -/
def muxC3 : ServeMux Nat := (newServeMux none).addRoute patC3 [mGET] 1

/-- A path matching no registered route. -/
def pathX : GoStr := "/x".data

/-- A mux with no routes, a default handler installed, and no error
handler. -/
def muxC4 : ServeMux Nat :=
  { staticDir := none, root := RouteNode.mk [] [] [] false, middleware := [],
    defaultHandler := some 7, errorHandler := false }

/-- A mux with no routes, a default handler and a custom error handler
installed. -/
def muxC4w : ServeMux Nat :=
  { staticDir := none, root := RouteNode.mk [] [] [] false, middleware := [],
    defaultHandler := some 7, errorHandler := true }

/-- The deletion cookie `DeleteCookie` builds: empty value, max-age −1. -/
def delCookie : Cookie := { name := "session_id".data, value := [], maxAge := -1 }

/-- A cookie whose value contains a `;`. -/
def ckSemi : Cookie := { name := "a".data, value := "b;c".data }

/-- The `session_id=abc123` cookie of the end-to-end scenarios. -/
def ckSession : Cookie := { name := "session_id".data, value := "abc123".data }

/-- The first parsed cookie name of the `ckSemi` round trip. -/
def aLit : GoStr := "a".data

/-- The truncated value the `ckSemi` round trip yields. -/
def bLit : GoStr := "b".data

/-- The literal segment `a` of the pattern `/a/:x/b`. -/
def aSeg : GoStr := "a".data

/-- The literal segment `b` of the pattern `/a/:x/b`. -/
def bSeg : GoStr := "b".data

/-- A concrete middle segment for the dynamic-lookup witness. -/
def s123 : GoStr := "123".data

/-- The protocol token of the unsupported-protocol witness. -/
def h2Proto : GoStr := "HTTP/2.0".data

/-- A request line with four whitespace-separated tokens. -/
def lineFour : GoStr := "GET / HTTP/1.1 extra".data

/-- A request line with two tokens. -/
def lineTwo : GoStr := "GET /".data

/-- A request line with an `HTTP/2.0` protocol token. -/
def lineH2 : GoStr := "GET / HTTP/2.0".data

/-- A well-formed request line. -/
def lineOk : GoStr := "GET / HTTP/1.1".data

/-- The root URL path. -/
def slashStr : GoStr := "/".data

/-- The pattern used to exercise `Handle`. -/
def patMW : GoStr := "/mw".data

/-- A mux with the given middleware list and nothing else, as built by
`NewServeMux` followed by `Use` calls. -/
def muxWith {α : Type} (ms : List (α → α)) : ServeMux α :=
  { newServeMux none with middleware := ms }

/-- The successor function as a concrete middleware over `Nat` handlers. -/
def succMW : Nat → Nat := fun n => n + 1

/-! Helper lemmas shared by the claim theorems. -/

/-- `splitOn` never returns an empty list of components. -/
theorem splitOn_ne_nil (sep : Char) : ∀ s : GoStr, splitOn sep s ≠ [] := by
  intro s
  induction s with
  | nil => simp [splitOn]
  | cons c cs ih =>
    by_cases h : c = sep
    · simp [splitOn, h]
    · simp only [splitOn, if_neg h]
      cases hs : splitOn sep cs with
      | nil => simp
      | cons h t => simp

/-- Unfolding `splitOn` at a separator head. -/
theorem splitOn_cons_sep (sep : Char) (cs : GoStr) :
    splitOn sep (sep :: cs) = [] :: splitOn sep cs := by
  simp [splitOn]

/-- Unfolding `splitOn` at a non-separator head. -/
theorem splitOn_cons_of_ne (sep c : Char) (cs : GoStr) (hc : c ≠ sep) :
    splitOn sep (c :: cs) =
      match splitOn sep cs with
      | [] => [[c]]
      | h :: t => (c :: h) :: t := by
  simp [splitOn, hc]

/-- Splitting a concatenation whose left part avoids the separator
prepends that part onto the first component of the right part's split. -/
theorem splitOn_append (sep : Char) (xs ys : GoStr) (hx : sep ∉ xs)
    (h : GoStr) (t : List GoStr) (hy : splitOn sep ys = h :: t) :
    splitOn sep (xs ++ ys) = (xs ++ h) :: t := by
  induction xs with
  | nil => simpa using hy
  | cons c cs ih =>
    have hc : c ≠ sep := fun hcs => hx (hcs ▸ List.mem_cons_self c cs)
    have hcs : sep ∉ cs := fun hm => hx (List.mem_cons_of_mem c hm)
    rw [List.cons_append, splitOn_cons_of_ne sep c (cs ++ ys) hc, ih hcs]
    rfl

/-- Unfolding `splitFirst` at a non-separator head. -/
theorem splitFirst_cons_of_ne (sep c : Char) (cs : GoStr) (hc : c ≠ sep) :
    splitFirst sep (c :: cs) =
      match splitFirst sep cs with
      | none => none
      | some (a, b) => some (c :: a, b) := by
  simp [splitFirst, hc]

/-- Splitting at the first separator of `n ++ sep :: v` yields `(n, v)`
when `n` avoids the separator. -/
theorem splitFirst_append (sep : Char) (n v : GoStr) (hn : sep ∉ n) :
    splitFirst sep (n ++ sep :: v) = some (n, v) := by
  induction n with
  | nil => simp [splitFirst]
  | cons c cs ih =>
    have hc : c ≠ sep := fun hcs => hn (hcs ▸ List.mem_cons_self c cs)
    have hcs : sep ∉ cs := fun hm => hn (List.mem_cons_of_mem c hm)
    rw [List.cons_append, splitFirst_cons_of_ne sep c (cs ++ sep :: v) hc, ih hcs]

/-- `trimLeft` is the identity when the first character is not
whitespace. -/
theorem trimLeft_eq_self (s : GoStr)
    (h : ∀ c, s.head? = some c → isSpace c = false) : trimLeft s = s := by
  cases s with
  | nil => rfl
  | cons c cs =>
    have := h c rfl
    simp [trimLeft, List.dropWhile_cons, this]

/-- `trimRight` is the identity when the last character is not
whitespace. -/
theorem trimRight_eq_self (s : GoStr)
    (h : ∀ c, s.getLast? = some c → isSpace c = false) : trimRight s = s := by
  unfold trimRight
  have hdrop : s.reverse.dropWhile (fun c => isSpace c) = s.reverse := by
    cases hrev : s.reverse with
    | nil => rfl
    | cons c cs =>
      have hc : isSpace c = false := by
        apply h
        rw [← List.head?_reverse, hrev]
        rfl
      simp [List.dropWhile_cons, hc]
  rw [hdrop, List.reverse_reverse]

/-- `trimSpace` is the identity when neither end is whitespace. -/
theorem trimSpace_eq_self (s : GoStr)
    (h1 : ∀ c, s.head? = some c → isSpace c = false)
    (h2 : ∀ c, s.getLast? = some c → isSpace c = false) : trimSpace s = s := by
  unfold trimSpace
  rw [trimLeft_eq_self s h1, trimRight_eq_self s h2]

/-- The header block emits as long as every stored value slice is
non-empty. -/
theorem emitHeaderLines_isSome (hs : Header)
    (h : ∀ kv ∈ hs, kv.2 ≠ ([] : List GoStr)) :
    (emitHeaderLines hs).isSome = true := by
  induction hs with
  | nil => rfl
  | cons kv rest ih =>
    obtain ⟨k, vs⟩ := kv
    have hne : vs ≠ [] := h (k, vs) (List.mem_cons_self _ _)
    cases vs with
    | nil => exact absurd rfl hne
    | cons v vt =>
      have hrest := ih (fun kv hkv => h kv (List.mem_cons_of_mem _ hkv))
      cases hemit : emitHeaderLines rest with
      | none => rw [hemit] at hrest; simp at hrest
      | some r => simp [emitHeaderLines, hemit]

/-- Membership after a store: the new pair or an old entry. -/
theorem mem_assocStore {β : Type} (l : List (GoStr × β)) (key : GoStr) (v : β) :
    ∀ kv ∈ assocStore l key v, kv = (key, v) ∨ kv ∈ l := by
  induction l with
  | nil =>
    intro kv h
    simp only [assocStore, List.mem_singleton] at h
    exact Or.inl h
  | cons kv0 rest ih =>
    intro kv h
    obtain ⟨k0, w0⟩ := kv0
    by_cases hk : k0 = key
    · simp only [assocStore, if_pos hk, List.mem_cons] at h
      rcases h with rfl | h
      · exact Or.inl rfl
      · exact Or.inr (List.mem_cons_of_mem _ h)
    · simp only [assocStore, if_neg hk, List.mem_cons] at h
      rcases h with rfl | h
      · exact Or.inr (List.mem_cons_self _ _)
      · rcases ih kv h with h1 | h1
        · exact Or.inl h1
        · exact Or.inr (List.mem_cons_of_mem _ h1)

/-- `Cookie.String` written as one flat concatenation: `name=value`
followed by the attribute fragments in source order, the `Max-Age`
fragment appearing exactly when the field is strictly positive. -/
theorem cookie_string_flat (c : Cookie) :
    c.string = (c.name ++ '=' :: c.value)
      ++ (if c.path ≠ [] then "; Path=".data ++ c.path else [])
      ++ (if c.domain ≠ [] then "; Domain=".data ++ c.domain else [])
      ++ (match c.expires with
          | some d => "; Expires=".data ++ d
          | none => [])
      ++ (if c.maxAge > 0 then "; Max-Age=".data ++ (toString c.maxAge).data else [])
      ++ (if c.secure then "; Secure".data else [])
      ++ (if c.httpOnly then "; HttpOnly".data else []) := by
  unfold Cookie.string
  by_cases hp : c.path = [] <;> by_cases hd : c.domain = [] <;>
    cases hexp : c.expires <;> by_cases hm : c.maxAge > 0 <;>
    cases hs : c.secure <;> cases ho : c.httpOnly <;>
      simp [hp, hd, hm, List.append_assoc]

/-- A list that is empty or starts with `;`; closed under concatenation. -/
theorem semiShape_append (a b : GoStr)
    (ha : a = [] ∨ ∃ r, a = ';' :: r) (hb : b = [] ∨ ∃ r, b = ';' :: r) :
    a ++ b = [] ∨ ∃ r, a ++ b = ';' :: r := by
  rcases ha with rfl | ⟨r, rfl⟩
  · simpa using hb
  · exact Or.inr ⟨r ++ b, rfl⟩

/-- The serialized cookie is `name=value` followed by an attribute block
that is empty or starts with `;`. -/
theorem cookie_attrs_shape (c : Cookie) :
    ∃ attrs : GoStr,
      c.string = (c.name ++ '=' :: c.value) ++ attrs ∧
      (attrs = [] ∨ ∃ r, attrs = ';' :: r) := by
  have h := cookie_string_flat c
  rw [List.append_assoc, List.append_assoc, List.append_assoc, List.append_assoc,
      List.append_assoc] at h
  refine ⟨_, h, ?_⟩
  apply semiShape_append
  · by_cases hp : c.path = []
    · simp [hp]
    · exact Or.inr ⟨" Path=".data ++ c.path, by simp [hp]⟩
  apply semiShape_append
  · by_cases hd : c.domain = []
    · simp [hd]
    · exact Or.inr ⟨" Domain=".data ++ c.domain, by simp [hd]⟩
  apply semiShape_append
  · cases c.expires with
    | none => exact Or.inl rfl
    | some d => exact Or.inr ⟨_, rfl⟩
  apply semiShape_append
  · by_cases hm : c.maxAge > 0
    · exact Or.inr ⟨" Max-Age=".data ++ (toString c.maxAge).data, by simp [hm]⟩
    · simp [hm]
  apply semiShape_append
  · cases hs : c.secure
    · simp
    · exact Or.inr ⟨_, rfl⟩
  · cases ho : c.httpOnly
    · simp
    · exact Or.inr ⟨_, rfl⟩

/-! The claim theorems. -/

/-- Claim C1 (code bug, evaluated at the failing input): `Header.Set`
replaces the stored slice instead of appending, so after
`Set("Content-Type", "application/json")` then
`Set("Content-Type", "text/html")` the store holds only the second value
and `Get` returns it — against the claim (and the repository's own
`TestHeaderSet`), which expects both values in insertion order and `Get`
returning the first. -/
theorem claim_C1_set_replaces :
    Header.set (Header.set ([] : Header) ctKey ajVal) ctKey htmlVal =
      [(ctKey, [htmlVal])] ∧
    Header.get (Header.set (Header.set ([] : Header) ctKey ajVal) ctKey htmlVal)
      ctKey = htmlVal := by
  constructor
  · decide
  · decide

/-- Claim C2: only the first `WriteHeader` call affects the wire — a call
with the headers-sent flag set returns the response unchanged; the first
call on a fresh response sets the flag, appends exactly the status line,
the header block and a blank line, and makes every later call a no-op. -/
theorem claim_C2_writeHeader_once :
    (∀ (r : Response) (c : Int), r.headersSent = true → r.writeHeader c = some r) ∧
    (∀ (r r₁ : Response) (c₁ : Int) (lines : GoStr),
      r.headersSent = false →
      emitHeaderLines r.headers = some lines →
      r.writeHeader c₁ = some r₁ →
      r₁.headersSent = true ∧
      r₁.wire = r.wire ++ statusLine c₁ ++ lines ++ crlf ∧
      ∀ c₂ : Int, r₁.writeHeader c₂ = some r₁) := by
  constructor
  · intro r c h
    simp [Response.writeHeader, h]
  · intro r r₁ c₁ lines h0 hemit hw
    simp only [Response.writeHeader, h0, Bool.false_eq_true, if_false, hemit] at hw
    obtain rfl := Option.some.inj hw
    refine ⟨rfl, by simp [List.append_assoc], ?_⟩
    intro c₂
    simp [Response.writeHeader]

/-- Claim C2 witness: `WriteHeader(200)` on a fresh response emits
`HTTP/1.1 200 OK\r\n\r\n`, sets the flag, and a later `WriteHeader(404)`
is ignored. -/
theorem claim_C2_witness :
    resp1.headersSent = true ∧
    resp1.wire = resp0.wire ++ statusLine 200 ++ [] ++ crlf ∧
    resp1.writeHeader 404 = some resp1 := by
  have h := claim_C2_writeHeader_once.2 resp0 resp1 200 [] rfl rfl rfl
  exact ⟨h.1, h.2.1, h.2.2 404⟩

/-- Claim C5 counterexample: when the parse deadline fires
(`DeadlineExceeded`), the per-connection task writes the
`HTTP/1.1 400 Bad Request` status line, not the `408 Request Timeout`
line the claim states (the repository's own `TestHandleConn_Timeout`
expects `400 Bad Request`). -/
theorem claim_C5_counterexample :
    connParseFailureBytes ParseError.deadlineExceeded =
      "HTTP/1.1 400 Bad Request\r\n\r\n".data ∧
    connParseFailureBytes ParseError.deadlineExceeded ≠
      "HTTP/1.1 408 Request Timeout\r\n\r\n".data := by
  constructor
  · decide
  · decide

/-- Claim C5 as amended: on every parse failure other than immediate EOF
— the deadline's `DeadlineExceeded` included — the per-connection task
writes the `HTTP/1.1 400 Bad Request` status line before closing; on EOF
it writes nothing. -/
theorem claim_C5_amended :
    ∀ e : ParseError,
      connParseFailureBytes e =
        if e = ParseError.eof then [] else "HTTP/1.1 400 Bad Request\r\n\r\n".data := by
  intro e
  cases e with
  | unsupportedProtocol p =>
    rw [if_neg (fun h => ParseError.noConfusion h)]
    rfl
  | eof => decide
  | deadlineExceeded => decide
  | malformedRequestLine => decide
  | urlParse => decide
  | malformedHeaderLine => decide
  | readFailed => decide

/-- Claim C10: `WriteHeader`'s first-value indexing is total under the
precondition that every stored value slice is non-empty (no panic: the
emission returns `some`), and `Header.Set` preserves that precondition,
since it only ever stores one-element slices. -/
theorem claim_C10_writeHeader_total :
    (∀ (r : Response) (c : Int),
      (∀ kv ∈ r.headers, kv.2 ≠ ([] : List GoStr)) →
      (r.writeHeader c).isSome = true) ∧
    (∀ (h : Header) (k v : GoStr) (kv : GoStr × List GoStr),
      (∀ kv0 ∈ h, kv0.2 ≠ ([] : List GoStr)) →
      kv ∈ Header.set h k v → kv.2 ≠ ([] : List GoStr)) := by
  constructor
  · intro r c hwf
    by_cases hs : r.headersSent
    · simp [Response.writeHeader, hs]
    · have := emitHeaderLines_isSome r.headers hwf
      cases hemit : emitHeaderLines r.headers with
      | none => rw [hemit] at this; simp at this
      | some lines => simp [Response.writeHeader, hs, hemit]
  · intro h k v kv hwf hmem
    unfold Header.set at hmem
    rcases mem_assocStore h k [v] kv hmem with rfl | h1
    · simp
    · exact hwf kv h1

/-- Claim C7 counterexample: the deletion cookie (`max-age = -1`, built
by `DeleteCookie`) serializes to bare `session_id=` with no `Max-Age`
fragment, while under the claim's emission condition (negative means
delete, hence applicable) the fragment `"; Max-Age=-1"` would appear —
the source emits `Max-Age` only when the field is strictly positive. -/
theorem claim_C7_counterexample :
    Cookie.string delCookie = "session_id=".data ∧
    Cookie.stringAsClaimed delCookie = "session_id=; Max-Age=-1".data ∧
    Cookie.string delCookie ≠ Cookie.stringAsClaimed delCookie := by
  refine ⟨by decide, by decide, by decide⟩

/-- Claim C7 as amended: serialization is `name=value` followed by the
fragments `"; Path=…"`, `"; Domain=…"`, `"; Expires=…"`,
`"; Max-Age=<int>"`, `"; Secure"`, `"; HttpOnly"` in exactly that order,
each emitted under the source's conditions — the `Max-Age` fragment
exactly when the field is strictly positive (zero and negative values
serialize without it). -/
theorem claim_C7_serialization_order (c : Cookie) :
    c.string = (c.name ++ '=' :: c.value)
      ++ (if c.path ≠ [] then "; Path=".data ++ c.path else [])
      ++ (if c.domain ≠ [] then "; Domain=".data ++ c.domain else [])
      ++ (match c.expires with
          | some d => "; Expires=".data ++ d
          | none => [])
      ++ (if c.maxAge > 0 then "; Max-Age=".data ++ (toString c.maxAge).data else [])
      ++ (if c.secure then "; Secure".data else [])
      ++ (if c.httpOnly then "; HttpOnly".data else []) :=
  cookie_string_flat c

/-- Claim C8 counterexample: the cookie `a=b;c` (value containing `;`)
does not round-trip — parsing its serialization yields first cookie
`(a, b)`, not the original `(a, b;c)`. -/
theorem claim_C8_counterexample :
    (parseCookies (Cookie.string ckSemi)).head? = some (aLit, bLit) ∧
    (parseCookies (Cookie.string ckSemi)).head? ≠
      some (ckSemi.name, ckSemi.value) := by
  refine ⟨by decide, by decide⟩

/-- Claim C8 as amended: for every cookie whose name contains neither
`;` nor `=` and does not begin with whitespace, and whose value contains
no `;` and does not end with whitespace, serializing and then parsing as
a `Cookie` request header yields a first cookie with exactly the
original name and value. -/
theorem claim_C8_roundtrip (c : Cookie)
    (hn1 : ';' ∉ c.name) (hn2 : '=' ∉ c.name) (hv1 : ';' ∉ c.value)
    (hn3 : Option.all (fun ch => !isSpace ch) c.name.head? = true)
    (hv2 : Option.all (fun ch => !isSpace ch) c.value.getLast? = true) :
    (parseCookies c.string).head? = some (c.name, c.value) := by
  obtain ⟨attrs, heq, hshape⟩ := cookie_attrs_shape c
  have hbase : ';' ∉ c.name ++ '=' :: c.value := by
    intro hmem
    rcases List.mem_append.mp hmem with h | h
    · exact hn1 h
    · rcases List.mem_cons.mp h with h | h
      · exact absurd h (by decide)
      · exact hv1 h
  have htrim : trimSpace (c.name ++ '=' :: c.value) = c.name ++ '=' :: c.value := by
    apply trimSpace_eq_self
    · intro ch hch
      cases hname : c.name with
      | nil =>
        rw [hname] at hch
        simp only [List.nil_append, List.head?_cons, Option.some.injEq] at hch
        subst hch
        decide
      | cons a as =>
        rw [hname] at hch
        simp only [List.cons_append, List.head?_cons, Option.some.injEq] at hch
        subst hch
        rw [hname] at hn3
        simpa using hn3
    · intro ch hch
      rw [List.getLast?_append_cons] at hch
      cases hval : c.value with
      | nil =>
        rw [hval] at hch
        simp only [List.getLast?_singleton, Option.some.injEq] at hch
        subst hch
        decide
      | cons b bs =>
        rw [hval, List.getLast?_cons_cons] at hch
        rw [hval] at hv2
        rw [hch] at hv2
        simpa using hv2
  have hfirst : splitFirst '=' (trimSpace (c.name ++ '=' :: c.value)) =
      some (c.name, c.value) := by
    rw [htrim]
    exact splitFirst_append '=' c.name c.value hn2
  rcases hshape with rfl | ⟨r, rfl⟩
  · rw [List.append_nil] at heq
    have hsplit : splitOn ';' c.string = (c.name ++ '=' :: c.value) :: [] := by
      have h0 : splitOn ';' ([] : GoStr) = [] :: [] := rfl
      have := splitOn_append ';' (c.name ++ '=' :: c.value) [] hbase [] [] h0
      rw [List.append_nil] at this
      rw [heq]
      exact this
    unfold parseCookies
    rw [hsplit]
    simp [List.filterMap_cons, hfirst]
  · have hy : splitOn ';' (';' :: r) = [] :: splitOn ';' r := by
      simp [splitOn]
    have hsplit := splitOn_append ';' (c.name ++ '=' :: c.value) (';' :: r) hbase
      [] (splitOn ';' r) hy
    rw [List.append_nil] at hsplit
    unfold parseCookies
    rw [heq, hsplit]
    simp [List.filterMap_cons, hfirst]

/-- Claim C8 witness: the `session_id=abc123` cookie round-trips. -/
theorem claim_C8_witness :
    (parseCookies (Cookie.string ckSession)).head? =
      some (ckSession.name, ckSession.value) :=
  claim_C8_roundtrip ckSession (by decide) (by decide) (by decide) (by decide)
    (by decide)

/-- Claim C10 witness: a response whose only header was stored by
`Header.Set` emits without hitting the out-of-bounds branch, and the
entry `Header.Set` stores has a non-empty slice. -/
theorem claim_C10_witness :
    (respW.writeHeader 200).isSome = true ∧
    (ctKey, [ajVal]).2 ≠ ([] : List GoStr) := by
  constructor
  · exact claim_C10_writeHeader_total.1 respW 200 (by decide)
  · exact claim_C10_writeHeader_total.2 ([] : Header) ctKey ajVal (ctKey, [ajVal])
      (by decide) (by decide)

/-- Claim C3 counterexample: with `/a/:x/b` registered, looking up the
concrete segment `S = ":x"` finds the dynamic node as a *literal* child,
so the handler is returned but no parameter is recorded — `params` is
empty and `params["x"]` is not `":x"`, against the claim's universal
`params["x"] = S`. -/
theorem claim_C3_counterexample :
    traverseTree (dynPath colonX) mGET muxC3.root [] =
      some (1, ([] : List (GoStr × GoStr))) ∧
    assocLookup ([] : List (GoStr × GoStr)) xKey = none := by
  refine ⟨by decide, rfl⟩

/-- Claim C3 as amended: with `/a/:x/b` registered for method `m`, for
every slash-free concrete segment `S` other than the literal `":x"`,
looking up `/a/S/b` with `m` returns the registered handler and records
`params["x"] = S`. -/
theorem claim_C3_param_capture {α : Type} (h : α) (m S : GoStr)
    (hS1 : '/' ∉ S) (hS2 : S ≠ colonX) :
    traverseTree (dynPath S) m
      (((newServeMux none : ServeMux α)).addRoute patC3 [m] h).root [] =
      some (h, [(xKey, S)]) := by
  have hR : splitOn '/' (S ++ "/b".data) = S :: [bSeg] := by
    have hy : splitOn '/' ("/b".data) = [] :: [bSeg] := rfl
    have hx := splitOn_append '/' S ("/b".data) hS1 [] [bSeg] hy
    rwa [List.append_nil] at hx
  have hsegs : splitOn '/' (dynPath S) = [] :: aSeg :: S :: [bSeg] := by
    have hstep : dynPath S = '/' :: 'a' :: '/' :: (S ++ "/b".data) := rfl
    rw [hstep, splitOn_cons_sep, splitOn_cons_of_ne '/' 'a' _ (by decide),
        splitOn_cons_sep, hR]
    rfl
  have hNE : (([':', 'x'] : GoStr) = S) = False := by
    simp only [eq_iff_iff, iff_false]
    exact fun hc => hS2 hc.symm
  have hroot : (((newServeMux none : ServeMux α)).addRoute patC3 [m] h).root =
      RouteNode.mk [] []
        [(aSeg, RouteNode.mk aSeg []
          [(colonX, RouteNode.mk colonX []
            [(bSeg, RouteNode.mk bSeg [(m, h)] [] false)] true)] false)] false := rfl
  rw [hroot]
  unfold traverseTree
  rw [hsegs]
  simp only [List.drop_succ_cons, List.drop_zero]
  simp only [traverseSegs, assocLookup, getDynamicChild, RouteNode.children,
    RouteNode.pathSegment, RouteNode.handler, startsWithColon, dropColon,
    assocStore, aSeg, bSeg, colonX, xKey, hNE, if_false, if_true]

/-- Claim C3 witness: looking up `/a/123/b` returns the handler with
`params["x"] = "123"`. -/
theorem claim_C3_witness :
    traverseTree (dynPath s123) mGET muxC3.root [] =
      some (1, [(xKey, s123)]) :=
  claim_C3_param_capture (1 : Nat) mGET s123 (by decide) (by decide)

/-- Claim C4 counterexample: a mux with a default handler installed
(handler `7`) and no routes dispatches a miss to the built-in
`defaultErrorHandler` with 404 — no handler of the mux is invoked, so the
installed default handler is not. -/
theorem claim_C4_counterexample :
    muxC4.serveHTTP false pathX mGET = Outcome.defaultError 404 ∧
    Outcome.isFound (muxC4.serveHTTP false pathX mGET) = false := by
  refine ⟨rfl, rfl⟩

/-- Claim C4 as amended: the default handler field is never invoked; on a
trie miss the user error handler is invoked with 404 when installed,
otherwise the built-in `defaultErrorHandler` — in neither case is a
handler of type `α` (the stored default handler included) invoked. -/
theorem claim_C4_miss_dispatch {α : Type} (mux : ServeMux α) (staticHit : Bool)
    (path method : GoStr) (hstatic : mux.staticDir = none)
    (hmiss : traverseTree path method mux.root [] = none) :
    mux.serveHTTP staticHit path method =
      (if mux.errorHandler then Outcome.errorHandled 404
       else Outcome.defaultError 404) ∧
    Outcome.isFound (mux.serveHTTP staticHit path method) = false := by
  have h1 : mux.serveHTTP staticHit path method =
      (if mux.errorHandler then Outcome.errorHandled 404
       else Outcome.defaultError 404) := by
    unfold ServeMux.serveHTTP
    rw [hstatic, hmiss]
    simp
  refine ⟨h1, ?_⟩
  rw [h1]
  by_cases he : mux.errorHandler
  · simp [he, Outcome.isFound]
  · simp [he, Outcome.isFound]

/-- Claim C4 witness: on a mux with both a default handler and an error
handler installed, a miss goes to the error handler with 404 and no
handler of the mux is invoked. -/
theorem claim_C4_witness :
    muxC4w.serveHTTP false pathX mGET = Outcome.errorHandled 404 ∧
    Outcome.isFound (muxC4w.serveHTTP false pathX mGET) = false := by
  have h := claim_C4_miss_dispatch muxC4w false pathX mGET rfl rfl
  refine ⟨?_, h.2⟩
  rw [h.1]
  rfl

/-- Claim C6 counterexample: the request line
`GET / HTTP/1.1 extra` splits into four tokens yet is accepted — the
parser requires only at least three tokens (`len(parts) < 3`), not
exactly three as the claim states. -/
theorem claim_C6_counterexample :
    (fields lineFour).length = 4 ∧
    parseRequestLine lineFour = Except.ok (mGET, slashStr, httpProto) := by
  refine ⟨rfl, rfl⟩

/-- Claim C6 as amended: the request line is rejected as malformed when
splitting on whitespace yields fewer than three tokens; with three or
more tokens the first three are taken as method, raw URL and protocol,
failing with an unsupported-protocol error exactly when the third token
is not `HTTP/1.1`. -/
theorem claim_C6_request_line :
    (∀ line : GoStr, (fields line).length < 3 →
      parseRequestLine line = Except.error ParseError.malformedRequestLine) ∧
    (∀ (line m u p : GoStr) (rest : List GoStr),
      fields line = m :: u :: p :: rest → p ≠ httpProto →
      parseRequestLine line = Except.error (ParseError.unsupportedProtocol p)) ∧
    (∀ (line m u : GoStr) (rest : List GoStr),
      fields line = m :: u :: httpProto :: rest →
      parseRequestLine line = Except.ok (m, u, httpProto)) := by
  refine ⟨?_, ?_, ?_⟩
  · intro line hlen
    unfold parseRequestLine
    cases hf : fields line with
    | nil => rfl
    | cons m rest1 =>
      cases rest1 with
      | nil => rfl
      | cons u rest2 =>
        cases rest2 with
        | nil => rfl
        | cons p rest3 =>
          rw [hf] at hlen
          simp at hlen
          omega
  · intro line m u p rest hf hp
    unfold parseRequestLine
    rw [hf]
    simp [hp]
  · intro line m u rest hf
    unfold parseRequestLine
    rw [hf]
    simp

/-- Claim C6 witness: two tokens are rejected as malformed, `HTTP/2.0`
in third position is rejected as unsupported, and a well-formed line is
accepted. -/
theorem claim_C6_witness :
    parseRequestLine lineTwo = Except.error ParseError.malformedRequestLine ∧
    parseRequestLine lineH2 =
      Except.error (ParseError.unsupportedProtocol h2Proto) ∧
    parseRequestLine lineOk = Except.ok (mGET, slashStr, httpProto) := by
  refine ⟨claim_C6_request_line.1 lineTwo (by decide),
          claim_C6_request_line.2.1 lineH2 mGET slashStr h2Proto [] rfl (by decide),
          claim_C6_request_line.2.2 lineOk mGET slashStr [] rfl⟩

/-- Claim C9: for a route registered through `Handle`, the middleware
chain is applied both at registration (inside `Handle`) and at dispatch
(inside `ServeHTTP`), so the handler invoked for a matching request is
`applyMiddleware (applyMiddleware h)` — every wrapper runs twice per
request. -/
theorem claim_C9_middleware_twice {α : Type} (ms : List (α → α)) (h : α)
    (method : GoStr) (hm : method ∈ commonMethods) :
    ((muxWith ms).handle patMW h).serveHTTP false patMW method =
      Outcome.found
        ((muxWith ms).applyMiddleware ((muxWith ms).applyMiddleware h)) [] := by
  simp only [commonMethods, List.mem_cons, List.not_mem_nil, or_false] at hm
  rcases hm with rfl | rfl | rfl | rfl | rfl | rfl | rfl <;> rfl

/-- Claim C9 witness: with the single middleware `n ↦ n + 1` and handler
`0`, the invoked handler value is `2` — the wrapper ran twice. -/
theorem claim_C9_witness :
    ((muxWith [succMW]).handle patMW 0).serveHTTP false patMW mGET =
      Outcome.found 2 [] := by
  have h := claim_C9_middleware_twice [succMW] 0 mGET (by decide)
  rw [h]
  rfl

end HttpLite
